import Mathlib

/-!
Verification of the OpenAccess_EPUB conversion pipeline.

This file gives a shallow embedding, in Lean 4, of the parts of the
OpenAccess_EPUB sources that the checked claims are about:

* the `xml.dom.minidom` document model used throughout the code,
  modelled by the inductive type `Node`;
* the DOM text helpers of `openaccess_epub/utils/__init__.py`
  (`nodeText`, `getTagData`, `getTagText`);
* the pagination and publication-date parsing of `jptsmeta.py`
  (`JPTSMeta.getPubDate`, and the elocation-id/fpage/lpage/page-range
  segment shared verbatim by `JPTSMeta20`, `JPTSMeta23` and `JPTSMeta30`);
* the reference, table-wrap and cross-reference handling of
  `content.py` (`OPSContent.parseRef`, `OPSContent.createMain`);
* the EPUB zipping helpers of `openaccess_epub/utils/__init__.py`
  (`epubZip`, `recursive_zip`, `makeEPUBBase`);
* the input classification of `openaccess_epub/commands/convert.py`.

Python exceptions are modelled by `Except PyErr`; Python `None` by
`Option`.  Attribute values on generated elements carry `Option String`
because the code can pass a Python `None` to `setAttribute` (this only
happens on freshly created output nodes, whose attributes are never read
back by any modelled code path).
-/

namespace OAEpub

/-- Exceptions that the modelled Python code can raise. -/
inductive PyErr where
  /-- Raised by indexing an empty list, e.g. `nodelist[0]`. -/
  | indexError
  /-- Raised by accessing a missing attribute, e.g. `None.data`. -/
  | attributeError
  /-- Raised by reading a local variable before any assignment. -/
  | nameError
  /-- Raised by `minidom`'s `removeAttribute` on an absent attribute. -/
  | notFoundErr
  /-- Raised by filesystem operations on missing paths. -/
  | osError
deriving Repr, DecidableEq

instance {ε α : Type} [DecidableEq ε] [DecidableEq α] :
    DecidableEq (Except ε α) := fun a b =>
  match a, b with
  | .ok x, .ok y =>
    if h : x = y then isTrue (by rw [h])
    else isFalse (fun hc => by injection hc with h2; exact h h2)
  | .error x, .error y =>
    if h : x = y then isTrue (by rw [h])
    else isFalse (fun hc => by injection hc with h2; exact h h2)
  | .ok _, .error _ => isFalse (fun hc => Except.noConfusion hc)
  | .error _, .ok _ => isFalse (fun hc => Except.noConfusion hc)

@[simp] theorem except_bind_ok {ε α β : Type} (a : α) (f : α → Except ε β) :
    (Except.ok a : Except ε α) >>= f = f a := rfl

@[simp] theorem except_bind_err {ε α β : Type} (e : ε) (f : α → Except ε β) :
    (Except.error e : Except ε α) >>= f = Except.error e := rfl

/-- The `xml.dom.minidom` document model, as used by the sources: an
element node with a tag name, attributes and ordered children, or a
character-data (text) node.  An attribute stored as `none` models a
Python `None` value passed to `setAttribute`; parsed input documents
only ever carry `some` values. -/
inductive Node where
  | element (tag : String) (attrs : List (String × Option String)) (children : List Node)
  | text (data : String)
deriving Repr, Inhabited

/-- The `childNodes` accessor: a text node has no children. -/
def Node.children : Node → List Node
  | .element _ _ cs => cs
  | .text _ => []

/-- The `firstChild` accessor (`None` when there are no children). -/
def Node.firstChild (n : Node) : Option Node :=
  n.children.head?

/-- Whether the node is a character-data node (`nodeType == TEXT_NODE`). -/
def Node.isTextNode : Node → Bool
  | .text _ => true
  | .element _ _ _ => false

/-- The stored attribute list of a node (empty for text nodes). -/
def Node.attrList : Node → List (String × Option String)
  | .element _ as _ => as
  | .text _ => []

/-- The tag name of an element node (`""` for text nodes, which have no
`tagName`; the modelled code only calls this on elements). -/
def Node.tag : Node → String
  | .element t _ _ => t
  | .text _ => ""

/-- The `minidom` `getAttribute`: returns the stored value, or `""` when
the attribute is absent.  A stored `none` (a Python `None` value, which
only arises on generated output nodes never read back by the modelled
code) is also flattened to `""`. -/
def Node.getAttribute (n : Node) (name : String) : String :=
  match n.attrList.find? (fun p => p.1 = name) with
  | some (_, some v) => v
  | some (_, none) => ""
  | none => ""

/-- The `minidom` `setAttribute`: replaces or appends the binding. -/
def setAttr (attrs : List (String × Option String)) (name : String)
    (v : Option String) : List (String × Option String) :=
  if attrs.any (fun p => p.1 = name) then
    attrs.map (fun p => if p.1 = name then (name, v) else p)
  else
    attrs ++ [(name, v)]

/-- The `minidom` `removeAttribute`: raises `xml.dom.NotFoundErr` when
the attribute is absent. -/
def pyRemoveAttr (attrs : List (String × Option String)) (name : String) :
    Except PyErr (List (String × Option String)) :=
  if attrs.any (fun p => p.1 = name) then
    .ok (attrs.filter (fun p => ¬(p.1 = name)))
  else
    .error .notFoundErr

/-- Python `list[0]`: raises `IndexError` on an empty list. -/
def pyHead : List α → Except PyErr α
  | [] => .error .indexError
  | a :: _ => .ok a

/-- Model of `JPTSMeta.getChildrenByTagName` (jptsmeta.py 530-545): collects the
direct element children with the given tag, skipping text nodes. -/
def childrenByTag (tag : String) (n : Node) : List Node :=
  n.children.filter (fun c =>
    match c with
    | .element t _ _ => t = tag
    | .text _ => false)

mutual

/-- Self-inclusive tag search of one node, in document (preorder)
order: the node itself when it is a matching element, followed by its
matching descendants. -/
def getElemsSelf (tag : String) : Node → List Node
  | .text _ => []
  | .element t a ch =>
    (if t = tag then [Node.element t a ch] else []) ++ getElemsList tag ch

/-- Descendant search over a child list, in document (preorder) order;
the helper behind `getElementsByTagName`. -/
def getElemsList (tag : String) : List Node → List Node
  | [] => []
  | c :: cs => getElemsSelf tag c ++ getElemsList tag cs

end

/-- The DOM `getElementsByTagName`: all descendant elements with the
given tag, in document order (the node itself is not included). -/
def Node.getElems (tag : String) : Node → List Node
  | .text _ => []
  | .element _ _ ch => getElemsList tag ch

/-- The default whitespace set of Python's `str.strip()` (ASCII part). -/
def isPyWhitespace (c : Char) : Bool :=
  c = ' ' || c = '\t' || c = '\n' || c = '\r' || c = '\x0b' || c = '\x0c'

/-- Python's `str.strip()`: drop leading and trailing whitespace. -/
def pyStrip (s : String) : String :=
  ⟨((s.data.dropWhile isPyWhitespace).reverse.dropWhile isPyWhitespace).reverse⟩

/-- The `node.firstChild.data` access inside `utils.nodeText`: raises
`AttributeError` when `firstChild` is `None` (empty node) or an element
node (which has no `data` attribute). -/
def pyFirstChildData (n : Node) : Except PyErr String :=
  match n.firstChild with
  | some (.text d) => .ok d
  | _ => .error .attributeError

/-- Model of `utils.nodeText` (utils/__init__.py 47-61): returns the stripped
data of the node's first child, catching the `AttributeError` raised by
the `.data` access and turning it into `''`. -/
def nodeText (n : Node) : String :=
  match pyFirstChildData n with
  | .ok d => pyStrip d
  | .error _ => ""

/-- Model of `utils.getTagData` (utils/__init__.py 212-223) on a node list: for
each node, when its first child is a text node the loop variable `data`
is overwritten with that child's data (there is no `break`, so the last
such node wins); a node with no first child raises `AttributeError`
(only `TypeError` is caught by the source). -/
def getTagDataLoop (data : String) : List Node → Except PyErr String
  | [] => .ok data
  | n :: rest =>
    match n.firstChild with
    | none => .error .attributeError
    | some (.text d) => getTagDataLoop d rest
    | some (.element _ _ _) => getTagDataLoop data rest

/-- Model of `utils.getTagData` entry point: `data` starts as `''`. -/
def getTagData (l : List Node) : Except PyErr String :=
  getTagDataLoop "" l

/-- Model of `utils.getTagText` (utils/__init__.py 166-182) on a node: when the
node has children, returns the data of the last non-newline text child
(starting from `''`); when it has none, the source falls through and
returns Python `None`, modelled by `none`. -/
def getTagText (n : Node) : Option String :=
  match n.children with
  | [] => none
  | cs => some (cs.foldl (fun data c =>
      match c with
      | .text d => if d = "\n" then data else d
      | .element _ _ _ => data) "")

/-! ### Input classification (`openaccess_epub/commands/convert.py`, `main`, lines 99-109) -/

/-- Python's `str.lower()`, modelled as basic-latin lowercasing of each
character (the inputs the command classifies are ASCII tokens). -/
def pyLower (s : String) : String :=
  ⟨s.data.map Char.toLower⟩

/-- Python's `str.endswith`: the argument is a suffix of the string. -/
def pyEndsWith (s suffix : String) : Bool :=
  suffix.data.isSuffixOf s.data

/-- Python's `str.startswith`: the argument begins the string. -/
def pyStartsWith (s pre : String) : Bool :=
  pre.data.isPrefixOf s.data

/-- How `main` handles one INPUT token; each constructor records the
value the branch goes on to use (the original token for the three
resolution branches, the `sys.exit` message for the usage error). -/
inductive InputRoute where
  /-- The case `inpt.lower().endswith('.xml')`: treated as a direct local XML
  file; `file_root_name` and `get_absolute_path` receive the original
  token. -/
  | xmlFile (tok : String)
  /-- The case `inpt.lower().startswith('doi:')`: resolved via
  `input_utils.doi_input` on the original token. -/
  | doi (tok : String)
  /-- The case `inpt.lower().startswith('http:')`: resolved via
  `input_utils.url_input` on the original token. -/
  | url (tok : String)
  /-- any other token: `sys.exit` with the formatted message (a fatal
  usage error with non-zero exit status). -/
  | usageError (msg : String)
deriving Repr, DecidableEq

/-- The branch constructor of a route, forgetting the payload. -/
inductive RouteKind where
  | xmlFile | doi | url | usageError
deriving Repr, DecidableEq

/-- Kind of a route. -/
def InputRoute.kind : InputRoute → RouteKind
  | .xmlFile _ => .xmlFile
  | .doi _ => .doi
  | .url _ => .url
  | .usageError _ => .usageError

/-- Payload of a route: the token handed to the branch's helper, or the
exit message. -/
def InputRoute.payload : InputRoute → String
  | .xmlFile t => t
  | .doi t => t
  | .url t => t
  | .usageError m => m

/-- The per-token classification of `convert.main` (convert.py 99-109):
an ordered `if`/`elif` chain on the lowercased token, with the original
token carried into the chosen branch. -/
def classifyInput (inpt : String) : InputRoute :=
  if pyEndsWith (pyLower inpt) ".xml" then .xmlFile inpt
  else if pyStartsWith (pyLower inpt) "doi:" then .doi inpt
  else if pyStartsWith (pyLower inpt) "http:" then .url inpt
  else .usageError (inpt ++ " not recognized as XML, DOI, or URL")

/-! ### Pagination fields (`jptsmeta.py`) -/

/-- The pagination-related attributes set by `parseArticleMetadata`.
`fpage` carries the `(text, seq)` namedtuple of `getFPage`. -/
structure PageInfo where
  elocation_id : Option String
  fpage : Option (String × String)
  lpage : Option String
  page_range : Option String
deriving Repr, DecidableEq

/-- Model of `JPTSMeta.getElocationID` (jptsmeta.py 371-383): text of the first
`elocation-id` child of `article-meta`, or `None`. -/
def getElocationID (am : Node) : Option String :=
  (childrenByTag "elocation-id" am).head?.map nodeText

/-- Model of `JPTSMeta.getFPage` (jptsmeta.py 329-340): `fpage` is read as
required (`[0]` raises `IndexError` when absent); returns its text and
`seq` attribute. -/
def getFPage (am : Node) : Except PyErr (String × String) := do
  let f ← pyHead (childrenByTag "fpage" am)
  .ok (nodeText f, f.getAttribute "seq")

/-- Model of `JPTSMeta.getLPage` (jptsmeta.py 342-354): optional. -/
def getLPage (am : Node) : Option String :=
  (childrenByTag "lpage" am).head?.map nodeText

/-- Model of `JPTSMeta.getPageRange` (jptsmeta.py 356-369): optional. -/
def getPageRange (am : Node) : Option String :=
  (childrenByTag "page-range" am).head?.map nodeText

/-- Python truthiness of an optional string: `None` and `''` are falsy. -/
def pyTruthy : Option String → Bool
  | none => false
  | some s => ¬(s = "")

/-- The elocation-id/fpage/lpage/page-range segment of
`parseArticleMetadata`, which appears verbatim in all three version
classes: `JPTSMeta20` (jptsmeta.py 637-646), `JPTSMeta23` (795-804) and
`JPTSMeta30` (986-995).  The branch is taken on the truthiness of
`self.elocation_id`. -/
def pageFieldsSegment (am : Node) : Except PyErr PageInfo :=
  let e := getElocationID am
  if pyTruthy e then
    .ok ⟨e, none, none, none⟩
  else do
    let fp ← getFPage am
    .ok ⟨e, some fp, getLPage am, getPageRange am⟩

/-- The segment as it runs inside `JPTSMeta20.parseArticleMetadata`
(jptsmeta.py 637-646). -/
def pageFields20 (am : Node) : Except PyErr PageInfo := pageFieldsSegment am

/-- The segment as it runs inside `JPTSMeta23.parseArticleMetadata`
(jptsmeta.py 795-804). -/
def pageFields23 (am : Node) : Except PyErr PageInfo := pageFieldsSegment am

/-- The segment as it runs inside `JPTSMeta30.parseArticleMetadata`
(jptsmeta.py 986-995). -/
def pageFields30 (am : Node) : Except PyErr PageInfo := pageFieldsSegment am

/-! ### Publication dates (`JPTSMeta.getPubDate`, jptsmeta.py 238-273) -/

/-- A month or day slot of the `Pub_Date` namedtuple: the Python code
stores either the integer `0` (when defaulted) or the node's text (a
string); the two are distinguishable values in Python. -/
inductive MonthDay where
  | zero
  | str (s : String)
deriving Repr, DecidableEq

/-- The `Pub_Date` namedtuple (without the `Node` field, which merely
repeats the source node). -/
structure PubDateEntry where
  year : String
  month : MonthDay
  day : MonthDay
  season : String
  pub_type : String
deriving Repr, DecidableEq

/-- The loop body of `JPTSMeta.getPubDate` for one `<pub-date>` node
`k` (jptsmeta.py 248-272): season presence (first descendant found by
`getElementsByTagName`) forces month and day to `0`; otherwise month
and day each default to `0` exactly when the lookup raises
`IndexError`; the required `year` lookup raises `IndexError` when
absent. -/
def getPubDateEntry (k : Node) : Except PyErr PubDateEntry := do
  let (season, month, day) :=
    match (k.getElems "season").head? with
    | some s => (nodeText s, MonthDay.zero, MonthDay.zero)
    | none =>
      let month := match (k.getElems "month").head? with
        | none => MonthDay.zero
        | some m => MonthDay.str (nodeText m)
      let day := match (k.getElems "day").head? with
        | none => MonthDay.zero
        | some d => MonthDay.str (nodeText d)
      ("", month, day)
  let y ← pyHead (k.getElems "year")
  .ok ⟨nodeText y, month, day, season, k.getAttribute "pub-type"⟩

/-! ### Bibliography references (`OPSContent.parseRef`, content.py 572-642) -/

/-- Python's `'{0}'.format(x)`: a `None` value renders as the string
`"None"`. -/
def pyFormat : Option String → String
  | some s => s
  | none => "None"

/-- Model of `createTextNode` as called with a possibly-`None` Python value;
`None` data is flattened to `""` here because no modelled code path
ever reads such a text node back. -/
def pyCreateTextNode (s : Option String) : Node := .text (s.getD "")

mutual

/-- The `<name>` descendants strictly below one node, paired with their
`nextSibling` flags. -/
def namePairsNode : Node → List (Node × Bool)
  | .text _ => []
  | .element _ _ ch => namePairsList ch

/-- The `<name>` elements found by `getElementsByTagName('name')` over a
child list, each paired with whether the node has a `nextSibling` (any
following node, element or text, among its immediate siblings), in
document order.  This is what the author loop of `parseRef` branches
on. -/
def namePairsList : List Node → List (Node × Bool)
  | [] => []
  | c :: cs =>
    (match c with
     | .element t a ch =>
       if t = "name" then [(Node.element t a ch, !cs.isEmpty)] else []
     | .text _ => []) ++ namePairsNode c ++ namePairsList cs

end

/-- The `<name>` descendants of a node together with their
`nextSibling` presence flags. -/
def collectNames (n : Node) : List (Node × Bool) :=
  namePairsList n.children

/-- The `citation-type == 'journal'` branch of `OPSContent.parseRef`
(content.py 587-635): builds `ref_string` from label, authors (comma
separator when the name node has a `nextSibling`, trailing space
otherwise), optional `et al.`, year, article title, source, volume,
optional issue, fpage and optional lpage. -/
def journalRefString (ref : Node) : Except PyErr String := do
  let labelStr ← getTagData (ref.getElems "label")
  let s := labelStr ++ ". "
  let s ← (collectNames ref).foldlM (fun acc (p : Node × Bool) => do
      let sn ← getTagData (p.1.getElems "surname")
      let gv ← getTagData (p.1.getElems "given-names")
      pure (acc ++ sn ++ " " ++ gv ++ (if p.2 then ", " else " "))) s
  let s := if (ref.getElems "etal").isEmpty then s else s ++ "et al. "
  let yr ← getTagData (ref.getElems "year")
  let s := s ++ "(" ++ yr ++ ") "
  let artTitle ← getTagData (ref.getElems "article-title")
  let s := s ++ artTitle ++ " "
  let source ← getTagData (ref.getElems "source")
  let s := s ++ source ++ " "
  let vol ← getTagData (ref.getElems "volume")
  let s := s ++ vol
  let issue := ref.getElems "issue"
  let s ← if issue.isEmpty then pure (s ++ ": ")
          else do
            let iss ← getTagData issue
            pure (s ++ "(" ++ iss ++ "): ")
  let fp ← getTagData (ref.getElems "fpage")
  let s := s ++ fp
  let lp := ref.getElems "lpage"
  let s ← if lp.isEmpty then pure (s ++ ".")
          else do
            let l ← getTagData lp
            pure (s ++ "-" ++ l ++ ".")
  .ok s

/-- The output paragraph of `parseRef`: its fragment identifier and its
text content. -/
structure RefPar where
  id : String
  textContent : String
deriving Repr, DecidableEq

/-- Model of `OPSContent.parseRef` on a `<ref>` whose citation is of type
`journal`: the paragraph's `id` is copied from the ref's `id`
attribute (content.py 579) and its text content is the single text
node holding `ref_string` (content.py 635).  The `citation` lookup
(content.py 583) raises `IndexError` when absent. -/
def parseRefJournal (ref : Node) : Except PyErr RefPar := do
  let _citation ← pyHead (ref.getElems "citation")
  let s ← journalRefString ref
  .ok ⟨ref.getAttribute "id", s⟩

/-! ### Cross-references (`OPSContent.createMain`, content.py 333-350) -/

/-- The `if`/`elif` chain of the xref loop: the value assigned to the
local variable `dest` for a recognized `ref-type`, `none` when no
branch assigns (so `dest` keeps whatever value it had from an earlier
iteration). -/
def xrefMapping (refType rid : String) : Option String :=
  if refType = "bibr" then some ("biblio.xml#" ++ rid)
  else if refType = "fig" then some ("main.xml#" ++ rid)
  else if refType = "supplementary-material" then some ("main.xml#" ++ rid)
  else if refType = "table" then some ("main.xml#" ++ rid)
  else if refType = "aff" then some ("synop.xml#" ++ rid)
  else none

/-- One iteration of the xref loop (content.py 334-350): the element is
relabeled to `a`, `ref-type` and `rid` are removed (raising
`NotFoundErr` when absent), and `setAttribute('href', dest)` runs
unconditionally — raising `NameError` when `dest` was never assigned by
this or any earlier iteration.  Returns the updated `dest` and the
rewritten element. -/
def xrefStep (dest : Option String) (x : Node) :
    Except PyErr (Option String × Node) := do
  let refType := x.getAttribute "ref-type"
  let rid := x.getAttribute "rid"
  let destNext := match xrefMapping refType rid with
    | some d => some d
    | none => dest
  let a1 ← pyRemoveAttr x.attrList "ref-type"
  let a2 ← pyRemoveAttr a1 "rid"
  match destNext with
  | none => .error .nameError
  | some d => .ok (destNext, Node.element "a" (setAttr a2 "href" (some d)) x.children)

/-- The whole xref loop, threading the `dest` local through the
iterations; `dest` starts unassigned (`none`). -/
def processXrefs (dest : Option String) : List Node → Except PyErr (List Node)
  | [] => .ok []
  | x :: xs => do
    let (destNext, xNew) ← xrefStep dest x
    let rest ← processXrefs destNext xs
    .ok (xNew :: rest)

/-! ### Tables (`OPSContent.createMain`, content.py 277-330) -/

/-- Splitting a character list at every occurrence of a separator
character (Python's `str.split(sep)` for a one-character separator). -/
def splitOnChar (sep : Char) : List Char → List (List Char)
  | [] => [[]]
  | c :: cs =>
    if c = sep then [] :: splitOnChar sep cs
    else
      match splitOnChar sep cs with
      | [] => [[c]]
      | g :: gs => (c :: g) :: gs

/-- Python's `s.split(sep)` for a one-character separator. -/
def pySplitOn (s : String) (sep : Char) : List String :=
  (splitOnChar sep s.data).map String.mk

/-- Joining string pieces with a separator. -/
def joinSep (sep : String) : List String → String
  | [] => ""
  | [p] => p
  | p :: ps => p ++ sep ++ joinSep sep ps

/-- Python's `os.path.splitext` stem: everything before the final dot,
except that a name whose only dots are leading keeps them. -/
def splitExtStem (f : String) : String :=
  let parts := pySplitOn f '.'
  match parts with
  | [] => f
  | [_] => f
  | _ => if parts.dropLast.all (fun p => p = "") then f
         else joinSep "." parts.dropLast

/-- The trailing hyphen-delimited segment of an id
(`table_id.split('-')[-1]`). -/
def lastHyphenSegment (s : String) : String :=
  (pySplitOn s '-').getLastD s

/-- The `os.walk('images')` loop shared by figures, tables and
equations (content.py 298-304 for tables): scans `(directory,
filename)` pairs in walk order and keeps overwriting `img` on a stem
match, so the last match wins; `none` when no file matches. -/
def imgResolve (files : List (String × String)) (name : String) : Option String :=
  files.foldl (fun acc pf =>
    if splitExtStem pf.2 = name then some (pf.1 ++ "/" ++ pf.2) else acc) none

mutual

/-- Renaming of a node and its descendant elements. -/
def renameDescNode (src dst : String) : Node → Node
  | .text d => .text d
  | .element t a ch =>
    .element (if t = src then dst else t) a (renameDescList src dst ch)

/-- Renaming of descendant elements (`getElementsByTagName` followed by
`tagName` assignment on each hit) over a child list. -/
def renameDescList (src dst : String) : List Node → List Node
  | [] => []
  | c :: cs => renameDescNode src dst c :: renameDescList src dst cs

end

/-- The `try` block of the table loop (content.py 313-325): fetch the
embedded HTML `<table>` (first descendant; `IndexError` when none),
strip `alternate-form-of` (`NotFoundErr` when absent), give it id
`h<name>`, relabel its `<bold>` descendants to `<b>`, and build the
`HTML version of <label>` link.  Any exception is swallowed by
`except: pass`, yielding neither link nor moved table; the only
raising statements come before any output is produced. -/
def tableTryBlock (name : String) (labelText : Option String)
    (tables : List Node) : Except PyErr (Node × Node) := do
  let htmlTable ← pyHead tables
  let a1 ← pyRemoveAttr htmlTable.attrList "alternate-form-of"
  let a2 := setAttr a1 "id" (some ("h" ++ name))
  let moved := Node.element htmlTable.tag a2 (renameDescList "bold" "b" htmlTable.children)
  let link := Node.element "a" [("href", some ("tables.xml#h" ++ name))]
    [Node.text ("HTML version of " ++ pyFormat labelText)]
  .ok (link, moved)

/-- One iteration of the `<table-wrap>` loop (content.py 278-327):
returns the nodes that replace the table-wrap in its parent (label
block, image, and the link when the `try` block succeeds) together
with the table moved into the Tables document (when any). -/
def tableWrapRepl (files : List (String × String)) (item : Node) :
    Except PyErr (List Node × Option Node) := do
  let tableId := item.getAttribute "id"
  let label ← pyHead (item.getElems "label")
  let labelText := getTagText label
  let titleText ← getTagData (item.getElems "title")
  let tableLabel := Node.element "div"
    [("class", some "table_label"), ("id", some tableId)]
    [Node.element "b" [] [pyCreateTextNode labelText], Node.text titleText]
  let name := lastHyphenSegment tableId
  let imgnode := Node.element "img"
    [("src", imgResolve files name), ("alt", some "A Table")] []
  match tableTryBlock name labelText (item.getElems "table") with
  | .ok (link, moved) => .ok ([tableLabel, imgnode, link], some moved)
  | .error _ => .ok ([tableLabel, imgnode], none)

/-- The net effect on the parent of processing one `<table-wrap>` child
sitting between `pre` and `post`: the three `insertBefore(~,
item.nextSibling)` calls place the new nodes where the table-wrap was,
and `parent.removeChild(item)` (content.py 327) drops the original in
all cases. -/
def applyTableWrap (files : List (String × String)) (pre post : List Node)
    (item : Node) : Except PyErr (List Node × Option Node) := do
  let (repl, moved) ← tableWrapRepl files item
  .ok (pre ++ repl ++ post, moved)

/-! ### EPUB zipping (`utils/__init__.py`: `epubZip` 226-238,
`recursive_zip` 241-249, `makeEPUBBase` 64-107) -/

/-- A directory entry of the on-disk output tree: a regular file with
its content, or a subdirectory with its entries in `os.listdir`
order. -/
inductive FSEntry where
  | file (name : String) (content : String)
  | dir (name : String) (entries : List FSEntry)
deriving Repr, Inhabited

/-- Look up a regular file by name among directory entries
(`os.path.isfile` + `open`). -/
def findFile (name : String) : List FSEntry → Option String
  | [] => none
  | .file n c :: rest => if n = name then some c else findFile name rest
  | .dir _ _ :: rest => findFile name rest

/-- Look up a subdirectory by name among directory entries. -/
def findDir (name : String) : List FSEntry → Option (List FSEntry)
  | [] => none
  | .file _ _ :: rest => findDir name rest
  | .dir n es :: rest => if n = name then some es else findDir name rest

mutual

/-- One `os.listdir` item of `recursive_zip`: a regular file is written
under the archive name `os.path.join(directory, item)`, a subdirectory
is recursed into with the extended directory path. -/
def zipEntryOne (directory : String) : FSEntry → List (String × String)
  | .file n c => [(directory ++ "/" ++ n, c)]
  | .dir n sub => zipEntriesList (directory ++ "/" ++ n) sub

/-- Model of `recursive_zip` (utils/__init__.py 241-249): walks `os.listdir` of
the directory in order — so every file's relative path is preserved in
the archive. -/
def zipEntriesList (directory : String) : List FSEntry → List (String × String)
  | [] => []
  | e :: es => zipEntryOne directory e ++ zipEntriesList directory es

end

/-- Model of `epubZip(outdirect)` (utils/__init__.py 226-238): creates the
archive `outdirect + '.epub'`, `chdir`s into the output directory,
writes the `mimetype` file first, then recursively adds `META-INF`
and `OPS`.  The result is the archive name and its entry list (archive
name, content) in write order; a missing `mimetype`, `META-INF` or
`OPS` raises an `OSError`. -/
def epubZip (outdirect : String) (root : List FSEntry) :
    Except PyErr (String × List (String × String)) := do
  let mt ← match findFile "mimetype" root with
    | some c => pure c
    | none => .error .osError
  let mi ← match findDir "META-INF" root with
    | some es => pure es
    | none => .error .osError
  let ops ← match findDir "OPS" root with
    | some es => pure es
    | none => .error .osError
  .ok (outdirect ++ ".epub",
       ("mimetype", mt) :: (zipEntriesList "META-INF" mi ++ zipEntriesList "OPS" ops))

/-- The literal content `makeEPUBBase` writes into the `mimetype` file
(utils/__init__.py 83-85). -/
def mimetypeContent : String := "application/epub+zip"

/-- The literal content `makeEPUBBase` writes into
`META-INF/container.xml` (utils/__init__.py 90-97). -/
def containerXML : String :=
"<?xml version=\"1.0\" encoding=\"UTF-8\" ?>
<container version=\"1.0\" xmlns=\"urn:oasis:names:tc:opendocument:xmlns:container\">
   <rootfiles>
      <rootfile full-path=\"OPS/content.opf\" media-type=\"application/oebps-package+xml\"/>
   </rootfiles>
</container>"

/-- The directory skeleton created by `makeEPUBBase` (utils/__init__.py
64-107): `mimetype`, `META-INF/container.xml`, and `OPS/css/article.css`
whose content is fetched remotely (a parameter here). -/
def makeEPUBBaseFS (css : String) : List FSEntry :=
  [ .file "mimetype" mimetypeContent,
    .dir "META-INF" [.file "container.xml" containerXML],
    .dir "OPS" [.dir "css" [.file "article.css" css]] ]

/-- A file reachable from a directory-entry list through a chain of
subdirectory names: `FileAt es comps c` says following the components
`comps` from `es` reaches a regular file with content `c`. -/
inductive FileAt : List FSEntry → List String → String → Prop where
  | here {es : List FSEntry} {n c : String} :
      FSEntry.file n c ∈ es → FileAt es [n] c
  | there {es sub : List FSEntry} {d c : String} {p : List String} :
      FSEntry.dir d sub ∈ es → FileAt sub p c → FileAt es (d :: p) c

/-- Path components joined with the separator the zip model uses. -/
def joinPath : List String → String
  | [] => ""
  | [p] => p
  | p :: ps => p ++ "/" ++ joinPath ps

/-! ### Supporting lemmas -/

theorem char_toLower_idem (c : Char) : c.toLower.toLower = c.toLower := by
  unfold Char.toLower
  by_cases h : c.toNat ≥ 65 ∧ c.toNat ≤ 90
  · rw [if_pos h]
    have hv : (Char.toNat c + 32).isValidChar := Or.inl (by omega)
    have ht : (Char.ofNat (Char.toNat c + 32)).toNat = Char.toNat c + 32 := by
      rw [Char.ofNat, dif_pos hv]
      rfl
    rw [if_neg (by rw [ht]; omega)]
  · rw [if_neg h, if_neg h]

theorem list_map_toLower_idem (l : List Char) :
    (l.map Char.toLower).map Char.toLower = l.map Char.toLower := by
  induction l with
  | nil => rfl
  | cons c cs ih => simp only [List.map_cons, char_toLower_idem, ih]

theorem pyLower_idem (s : String) : pyLower (pyLower s) = pyLower s :=
  congrArg String.mk (list_map_toLower_idem s.data)

theorem children_element (t : String) (a : List (String × Option String))
    (cs : List Node) : (Node.element t a cs).children = cs := rfl

theorem children_text (d : String) : (Node.text d).children = [] := rfl

theorem getElemsList_nil (tag : String) : getElemsList tag [] = [] := by
  simp [getElemsList]

theorem getElemsList_cons_text (tag d : String) (cs : List Node) :
    getElemsList tag (Node.text d :: cs) = getElemsList tag cs := by
  simp [getElemsList, getElemsSelf]

theorem getElemsList_cons_element (tag t : String)
    (a : List (String × Option String)) (ch cs : List Node) :
    getElemsList tag (Node.element t a ch :: cs) =
      ((if t = tag then [Node.element t a ch] else []) ++ getElemsList tag ch)
        ++ getElemsList tag cs := by
  simp [getElemsList, getElemsSelf]

/-- A node all of whose element children contain only text nodes; the
JPTS content model of `<pub-date>` (`(((day?, month?) | season)?,
year)`) is flat in this sense. -/
def flatNode (k : Node) : Bool :=
  k.children.all (fun c => c.children.all Node.isTextNode)

theorem getElemsList_eq_nil_of_textOnly {l : List Node}
    (h : l.all Node.isTextNode) (tag : String) : getElemsList tag l = [] := by
  induction l with
  | nil => exact getElemsList_nil tag
  | cons c cs ih =>
    simp only [List.all_cons, Bool.and_eq_true] at h
    cases c with
    | text d => rw [getElemsList_cons_text]; exact ih h.2
    | element t a ch => simp [Node.isTextNode] at h

/-- Over a flat node, the descendant search of `getElementsByTagName`
agrees with the child-only search of `getChildrenByTagName`. -/
theorem getElems_eq_childrenByTag_of_flat {k : Node} (h : flatNode k = true)
    (tag : String) : k.getElems tag = childrenByTag tag k := by
  cases k with
  | text d =>
    show Node.getElems tag (Node.text d) = childrenByTag tag (Node.text d)
    simp [Node.getElems, childrenByTag, children_text]
  | element t a cs =>
    rw [flatNode, children_element, List.all_eq_true] at h
    show Node.getElems tag (Node.element t a cs) = childrenByTag tag (Node.element t a cs)
    rw [Node.getElems, childrenByTag, children_element]
    induction cs with
    | nil => simp [getElemsList_nil]
    | cons c cs ih =>
      have hc : c.children.all Node.isTextNode = true := h c (by simp)
      have hcs : ∀ x ∈ cs, x.children.all Node.isTextNode = true :=
        fun x hx => h x (by simp [hx])
      cases c with
      | text d =>
        rw [getElemsList_cons_text]
        simpa using ih hcs
      | element t' a' ch =>
        rw [children_element] at hc
        have hch : getElemsList tag ch = [] :=
          getElemsList_eq_nil_of_textOnly hc tag
        rw [getElemsList_cons_element, hch]
        by_cases ht : t' = tag
        · simp only [if_pos ht, List.filter_cons]
          simp [ht, ih hcs]
        · simp only [if_neg ht, List.filter_cons]
          simp [ht, ih hcs]

/-- The data of a node's first child when that child is a text node. -/
def textFirstChildData (n : Node) : Option String :=
  match n.firstChild with
  | some (.text d) => some d
  | _ => none

theorem getTagDataLoop_eq {l : List Node}
    (h : ∀ n ∈ l, n.firstChild.isSome) (acc : String) :
    getTagDataLoop acc l = .ok ((l.filterMap textFirstChildData).getLastD acc) := by
  induction l generalizing acc with
  | nil => rfl
  | cons n rest ih =>
    have hn := h n (by simp)
    have hrest : ∀ m ∈ rest, m.firstChild.isSome :=
      fun m hm => h m (by simp [hm])
    cases hfc : n.firstChild with
    | none => simp [hfc] at hn
    | some fc =>
      cases fc with
      | text d =>
        have hfcd : textFirstChildData n = some d := by
          simp [textFirstChildData, hfc]
        simp only [getTagDataLoop, hfc, List.filterMap_cons, hfcd,
          List.getLastD_cons]
        exact ih hrest d
      | element t a ch =>
        have hfcd : textFirstChildData n = none := by
          simp [textFirstChildData, hfc]
        simp only [getTagDataLoop, hfc, List.filterMap_cons, hfcd]
        exact ih hrest acc

theorem zip_mem_of_file {es : List FSEntry} {n c : String}
    (h : FSEntry.file n c ∈ es) (dir : String) :
    (dir ++ "/" ++ n, c) ∈ zipEntriesList dir es := by
  induction es with
  | nil => cases h
  | cons e es ih =>
    rcases List.mem_cons.mp h with he | hmem
    · subst he
      simp [zipEntriesList, zipEntryOne]
    · cases e <;> simp [zipEntriesList, zipEntryOne, ih hmem]

theorem zip_mem_of_dir {es sub : List FSEntry} {d : String} {x : String × String}
    (h : FSEntry.dir d sub ∈ es) (dir : String)
    (hx : x ∈ zipEntriesList (dir ++ "/" ++ d) sub) :
    x ∈ zipEntriesList dir es := by
  induction es with
  | nil => cases h
  | cons e es ih =>
    rcases List.mem_cons.mp h with he | hmem
    · subst he
      simp [zipEntriesList, zipEntryOne, hx]
    · cases e <;> simp [zipEntriesList, zipEntryOne, ih hmem]

theorem joinPath_append_head (a b : String) (p : List String) :
    joinPath ((a ++ "/" ++ b) :: p) = a ++ "/" ++ joinPath (b :: p) := by
  cases p with
  | nil => rfl
  | cons q qs => simp [joinPath, String.append_assoc]

/-- Every file reachable below a zipped directory appears in the
archive under its joined relative path. -/
theorem fileAt_mem_zipEntries {es : List FSEntry} {comps : List String}
    {c : String} (h : FileAt es comps c) (dir : String) :
    (joinPath (dir :: comps), c) ∈ zipEntriesList dir es := by
  induction h generalizing dir with
  | here hmem => exact zip_mem_of_file hmem dir
  | there hmem _hsub ih =>
    rename_i es sub d c p
    have := ih (dir ++ "/" ++ d)
    rw [joinPath_append_head] at this
    exact zip_mem_of_dir hmem dir this

/-! ### Claim theorems -/

/-- C9: `nodeText` is total over all DOM nodes and never raises — its
return type is `String`, not `Except` — returning the stripped data of
the first child when that child is a text node, and `""` in every
other case, including a childless node and a node whose first child is
an element. -/
theorem C9_nodeText_total (n : Node) :
    (∀ d : String, n.firstChild = some (Node.text d) → nodeText n = pyStrip d) ∧
    ((∀ d : String, ¬(n.firstChild = some (Node.text d))) → nodeText n = "") := by
  constructor
  · intro d hd
    simp [nodeText, pyFirstChildData, hd]
  · intro hno
    cases hfc : n.firstChild with
    | none => simp [nodeText, pyFirstChildData, hfc]
    | some fc =>
      cases fc with
      | text d => exact absurd hfc (hno d)
      | element t a ch => simp [nodeText, pyFirstChildData, hfc]

/-- Witness for C9 at concrete nodes: a text first child is stripped, a
childless node and an element first child give `""`. -/
theorem C9_witness :
    nodeText (Node.element "p" [] [Node.text " hi "]) = "hi" ∧
    nodeText (Node.element "p" [] []) = "" ∧
    nodeText (Node.element "p" [] [Node.element "i" [] []]) = "" := by
  refine ⟨?_, ?_, ?_⟩
  · have h := (C9_nodeText_total (Node.element "p" [] [Node.text " hi "])).1
      " hi " rfl
    rw [h]
    decide
  · exact (C9_nodeText_total (Node.element "p" [] [])).2
      (by intro d h; simp [Node.firstChild, Node.children] at h)
  · exact (C9_nodeText_total (Node.element "p" [] [Node.element "i" [] []])).2
      (by intro d h; simp [Node.firstChild, Node.children] at h)

/-- The two-node list of the C8 counterexample: both nodes have a
text-node first child, with distinct non-empty data. -/
def lC8 : List Node :=
  [Node.element "x" [] [Node.text "a"], Node.element "x" [] [Node.text "b"]]

/-- C8 counterexample: over a list whose nodes carry the distinct
non-empty text values `"a"` then `"b"`, `getTagData` returns `"b"` —
the value from the *later* node — not the first value `"a"` the claim
requires. -/
theorem C8_counterexample :
    getTagData lC8 = .ok "b" ∧
    textFirstChildData lC8[0] = some "a" ∧
    textFirstChildData lC8[1] = some "b" ∧
    ¬(getTagData lC8 = .ok "a") := by
  refine ⟨rfl, rfl, rfl, by decide⟩

/-- C8 as amended: when every node in the list has a first child (else
`AttributeError` propagates), `getTagData` returns the data of the
*last* node whose first child is a text node, or `""` when there is no
such node; there is no non-empty filtering. -/
theorem C8_getTagData_amended (l : List Node)
    (h : ∀ n ∈ l, n.firstChild.isSome) :
    getTagData l = .ok ((l.filterMap textFirstChildData).getLastD "") :=
  getTagDataLoop_eq h ""

/-- Witness for C8 at the concrete two-node list. -/
theorem C8_witness : getTagData lC8 = .ok "b" := by
  have h := C8_getTagData_amended lC8 (by decide)
  rw [h]
  rfl

/-- The month or day slot as `getPubDate` computes it when no season is
present: `0` exactly when the element list is empty, its text
otherwise. -/
def monthDayOf (l : List Node) : MonthDay :=
  match l.head? with
  | none => MonthDay.zero
  | some m => MonthDay.str (nodeText m)

/-- C2: on a `<pub-date>` node obeying the flat JPTS content model and
carrying the required `<year>`, a `<season>` child forces month and day
to `0` — even when `<month>`/`<day>` children are also present — with
`season` set to the season's text; with no `<season>` child, `season`
is `""` and month and day each default to `0` exactly when the
corresponding child is missing. -/
theorem C2_getPubDate_season (k y : Node) (ys : List Node)
    (hflat : flatNode k = true)
    (hyear : childrenByTag "year" k = y :: ys) :
    (∀ s ss, childrenByTag "season" k = s :: ss →
       getPubDateEntry k =
         .ok ⟨nodeText y, .zero, .zero, nodeText s, k.getAttribute "pub-type"⟩) ∧
    (childrenByTag "season" k = [] →
       getPubDateEntry k =
         .ok ⟨nodeText y, monthDayOf (childrenByTag "month" k),
              monthDayOf (childrenByTag "day" k), "",
              k.getAttribute "pub-type"⟩ ∧
       (monthDayOf (childrenByTag "month" k) = .zero ↔ childrenByTag "month" k = []) ∧
       (monthDayOf (childrenByTag "day" k) = .zero ↔ childrenByTag "day" k = [])) := by
  have hse := getElems_eq_childrenByTag_of_flat hflat "season"
  have hmo := getElems_eq_childrenByTag_of_flat hflat "month"
  have hda := getElems_eq_childrenByTag_of_flat hflat "day"
  have hye := getElems_eq_childrenByTag_of_flat hflat "year"
  constructor
  · intro s ss hs
    simp only [getPubDateEntry, hse, hmo, hda, hye, hs, hyear,
      List.head?_cons, pyHead]
    rfl
  · intro hs
    refine ⟨?_, ?_, ?_⟩
    · simp only [getPubDateEntry, hse, hmo, hda, hye, hs, hyear, monthDayOf,
        List.head?_nil, List.head?_cons, pyHead]
      rfl
    · cases hm : childrenByTag "month" k <;> simp [monthDayOf, hm]
    · cases hd : childrenByTag "day" k <;> simp [monthDayOf, hd]

/-- The concrete `<pub-date>` of the C2 witness: it contains a season
*and* month and day children. -/
def pubDateC2 : Node :=
  .element "pub-date" [("pub-type", some "epub")] [
    .element "season" [] [.text "Spring"],
    .element "month" [] [.text "5"],
    .element "day" [] [.text "2"],
    .element "year" [] [.text "2000"]]

/-- Witness for C2: with season, month and day all present, month and
day still come out as `0` and season as the season text. -/
theorem C2_witness :
    getPubDateEntry pubDateC2 = .ok ⟨"2000", .zero, .zero, "Spring", "epub"⟩ := by
  have h := (C2_getPubDate_season pubDateC2
      (Node.element "year" [] [Node.text "2000"]) []
      (by decide) rfl).1
    (Node.element "season" [] [Node.text "Spring"]) [] rfl
  rw [h]
  rfl

/-- The `<article-meta>` of the C1 counterexample: it contains an
`<elocation-id>` child (an empty one) alongside an `<fpage>`. -/
def amC1 : Node :=
  .element "article-meta" [] [
    .element "elocation-id" [] [],
    .element "fpage" [] [.text "10"]]

/-- C1 counterexample: this `<article-meta>` does contain an
`<elocation-id>` child, yet in all three DTD versions the constructed
metadata carries a present (non-`None`) `fpage` — because the code
branches on the truthiness of the extracted text, and an empty
`<elocation-id>` yields the falsy `''`. -/
theorem C1_counterexample :
    childrenByTag "elocation-id" amC1 = [Node.element "elocation-id" [] []] ∧
    pageFields20 amC1 = .ok ⟨some "", some ("10", ""), none, none⟩ ∧
    pageFields23 amC1 = .ok ⟨some "", some ("10", ""), none, none⟩ ∧
    pageFields30 amC1 = .ok ⟨some "", some ("10", ""), none, none⟩ := by
  exact ⟨rfl, rfl, rfl, rfl⟩

/-- C1 as amended: in each of the three DTD versions, when the
`<article-meta>` contains an `<elocation-id>` child whose extracted
(stripped) text is non-empty, `fpage`, `lpage` and `page_range` are all
absent regardless of any `<fpage>`/`<lpage>`/`<page-range>` elements;
when there is no such truthy elocation-id (including the case of an
elocation-id child with empty text), `fpage` is read as required (an
`IndexError` propagates when it is missing) and `lpage`/`page_range`
are optional. -/
theorem C1_pagination_amended (am : Node) :
    (pyTruthy (getElocationID am) = true →
       pageFields20 am = .ok ⟨getElocationID am, none, none, none⟩ ∧
       pageFields23 am = .ok ⟨getElocationID am, none, none, none⟩ ∧
       pageFields30 am = .ok ⟨getElocationID am, none, none, none⟩) ∧
    (pyTruthy (getElocationID am) = false →
       (∀ f fs, childrenByTag "fpage" am = f :: fs →
          pageFields20 am = .ok ⟨getElocationID am,
            some (nodeText f, f.getAttribute "seq"),
            getLPage am, getPageRange am⟩ ∧
          pageFields23 am = .ok ⟨getElocationID am,
            some (nodeText f, f.getAttribute "seq"),
            getLPage am, getPageRange am⟩ ∧
          pageFields30 am = .ok ⟨getElocationID am,
            some (nodeText f, f.getAttribute "seq"),
            getLPage am, getPageRange am⟩) ∧
       (childrenByTag "fpage" am = [] →
          pageFields20 am = .error .indexError ∧
          pageFields23 am = .error .indexError ∧
          pageFields30 am = .error .indexError)) := by
  constructor
  · intro ht
    have h : pageFieldsSegment am = .ok ⟨getElocationID am, none, none, none⟩ := by
      simp [pageFieldsSegment, ht]
    exact ⟨h, h, h⟩
  · intro hf
    constructor
    · intro f fs hfp
      have h : pageFieldsSegment am = .ok ⟨getElocationID am,
          some (nodeText f, f.getAttribute "seq"),
          getLPage am, getPageRange am⟩ := by
        simp only [pageFieldsSegment, hf, getFPage, hfp, pyHead,
          Bool.false_eq_true, if_false]
        rfl
      exact ⟨h, h, h⟩
    · intro hfp
      have h : pageFieldsSegment am = .error .indexError := by
        simp only [pageFieldsSegment, hf, getFPage, hfp, pyHead,
          Bool.false_eq_true, if_false]
        rfl
      exact ⟨h, h, h⟩

/-- The `<article-meta>` of the C1 witness: a non-empty
`<elocation-id>` together with textually present `<fpage>` and
`<lpage>`. -/
def amC1w : Node :=
  .element "article-meta" [] [
    .element "elocation-id" [] [.text "e17"],
    .element "fpage" [] [.text "10"],
    .element "lpage" [] [.text "20"]]

/-- Witness for C1 as amended: a truthy elocation-id forces all three
page fields to `None` even with `fpage`/`lpage` present. -/
theorem C1_witness :
    pageFields20 amC1w = .ok ⟨some "e17", none, none, none⟩ ∧
    pageFields23 amC1w = .ok ⟨some "e17", none, none, none⟩ ∧
    pageFields30 amC1w = .ok ⟨some "e17", none, none, none⟩ := by
  have h := (C1_pagination_amended amC1w).1 (by decide)
  exact ⟨by rw [h.1]; rfl, by rw [h.2.1]; rfl, by rw [h.2.2]; rfl⟩

/-- C10: input classification is case-insensitive — every token is
classified exactly as its lowercased form would be — while the payload
the chosen branch goes on to use (the token handed to
`file_root_name`/`doi_input`/`url_input`, or the exit message) is
always built from the original, uncased token; in particular
`ARTICLE.XML` is a direct XML file and `DOI:10.1371/x` routes to DOI
resolution. -/
theorem C10_classify_case_insensitive :
    (∀ s : String, (classifyInput (pyLower s)).kind = (classifyInput s).kind) ∧
    (∀ s : String, (classifyInput s).payload = s ∨
       (classifyInput s).payload = s ++ " not recognized as XML, DOI, or URL") ∧
    classifyInput "ARTICLE.XML" = .xmlFile "ARTICLE.XML" ∧
    classifyInput "DOI:10.1371/x" = .doi "DOI:10.1371/x" := by
  refine ⟨?_, ?_, by decide, by decide⟩
  · intro s
    unfold classifyInput
    rw [pyLower_idem]
    by_cases h1 : pyEndsWith (pyLower s) ".xml" <;>
      by_cases h2 : pyStartsWith (pyLower s) "doi:" <;>
        by_cases h3 : pyStartsWith (pyLower s) "http:" <;>
          simp [h1, h2, h3, InputRoute.kind]
  · intro s
    unfold classifyInput
    by_cases h1 : pyEndsWith (pyLower s) ".xml" <;>
      by_cases h2 : pyStartsWith (pyLower s) "doi:" <;>
        by_cases h3 : pyStartsWith (pyLower s) "http:" <;>
          simp [h1, h2, h3, InputRoute.payload]

/-- C3 counterexample: the token `http://example.org/a.xml` starts with
`http:`, so the claim requires URL resolution, but the classification
checks the `.xml` suffix first and handles it as a direct local file
path. -/
theorem C3_counterexample :
    classifyInput "http://example.org/a.xml" =
      .xmlFile "http://example.org/a.xml" ∧
    pyStartsWith (pyLower "http://example.org/a.xml") "http:" = true ∧
    ¬((classifyInput "http://example.org/a.xml").kind = RouteKind.url) := by
  refine ⟨by decide, by decide, by decide⟩

/-- C3 as amended: classification is an ordered chain — a token whose
lowercased form ends with `.xml` is always a direct local file path,
even when it also starts with `doi:` or `http:`; only otherwise do the
`doi:` and then `http:` checks fire; any remaining token terminates the
process via `sys.exit` with the descriptive message (a non-zero exit
status). -/
theorem C3_classification_amended (s : String) :
    (pyEndsWith (pyLower s) ".xml" = true → classifyInput s = .xmlFile s) ∧
    (pyEndsWith (pyLower s) ".xml" = false →
       pyStartsWith (pyLower s) "doi:" = true → classifyInput s = .doi s) ∧
    (pyEndsWith (pyLower s) ".xml" = false →
       pyStartsWith (pyLower s) "doi:" = false →
       pyStartsWith (pyLower s) "http:" = true → classifyInput s = .url s) ∧
    (pyEndsWith (pyLower s) ".xml" = false →
       pyStartsWith (pyLower s) "doi:" = false →
       pyStartsWith (pyLower s) "http:" = false →
       classifyInput s =
         .usageError (s ++ " not recognized as XML, DOI, or URL")) := by
  refine ⟨fun h1 => by simp [classifyInput, h1],
    fun h1 h2 => by simp [classifyInput, h1, h2],
    fun h1 h2 h3 => by simp [classifyInput, h1, h2, h3],
    fun h1 h2 h3 => by simp [classifyInput, h1, h2, h3]⟩

/-- Witness for C3 as amended, at one concrete token per branch. -/
theorem C3_witness :
    classifyInput "article.xml" = .xmlFile "article.xml" ∧
    classifyInput "doi:10.1371/journal.pone.0000001" =
      .doi "doi:10.1371/journal.pone.0000001" ∧
    classifyInput "http://example.org/a" = .url "http://example.org/a" ∧
    classifyInput "ftp://x" =
      .usageError "ftp://x not recognized as XML, DOI, or URL" := by
  refine ⟨(C3_classification_amended "article.xml").1 (by decide),
    (C3_classification_amended "doi:10.1371/journal.pone.0000001").2.1
      (by decide) (by decide),
    (C3_classification_amended "http://example.org/a").2.2.1
      (by decide) (by decide) (by decide),
    ?_⟩
  have h := (C3_classification_amended "ftp://x").2.2.2
    (by decide) (by decide) (by decide)
  rw [h]
  decide

/-- The `<ref>` node of C4: citation-type `journal`, label `1`, two
author names wrapped in the usual `<person-group>` (so the second name
node has no `nextSibling`), no `<etal/>`, year 2012, article title,
source, volume 5, issue 2, fpage 10, lpage 20. -/
def refC4 : Node :=
  .element "ref" [("id", some "r001")] [
    .element "label" [] [.text "1"],
    .element "citation" [("citation-type", some "journal")] [
      .element "person-group" [("person-group-type", some "author")] [
        .element "name" [] [.element "surname" [] [.text "Smith"],
                            .element "given-names" [] [.text "J"]],
        .element "name" [] [.element "surname" [] [.text "Doe"],
                            .element "given-names" [] [.text "A"]]],
      .element "year" [] [.text "2012"],
      .element "article-title" [] [.text "A Study"],
      .element "source" [] [.text "J. Examples"],
      .element "volume" [] [.text "5"],
      .element "issue" [] [.text "2"],
      .element "fpage" [] [.text "10"],
      .element "lpage" [] [.text "20"]]]

/-- C4: on the journal reference above, `parseRef` produces a paragraph
whose id is copied from the ref and whose text content is exactly
`1. Smith J, Doe A (2012) A Study J. Examples 5(2): 10-20.` — the last
author's name is followed by a trailing space (its `<name>` node has no
`nextSibling`), not a comma. -/
theorem C4_parseRef_journal :
    parseRefJournal refC4 =
      .ok ⟨"r001", "1. Smith J, Doe A (2012) A Study J. Examples 5(2): 10-20."⟩ ∧
    (collectNames refC4).map (fun p => p.2) = [true, false] := by
  exact ⟨by decide, by decide⟩

/-- The two `<xref>` elements of the C6 counterexample: a recognized
`bibr` reference followed by one with the unrecognized ref-type
`video`. -/
def xrefsC6 : List Node :=
  [.element "xref" [("ref-type", some "bibr"), ("rid", some "r1")] [.text "1"],
   .element "xref" [("ref-type", some "video"), ("rid", some "v1")] [.text "V"]]

/-- C6 counterexample: the second xref's ref-type `video` is
unrecognized, yet the resulting anchor *does* get an `href` — the stale
`dest` value `biblio.xml#r1` computed for the first xref — because
`setAttribute('href', dest)` runs on every iteration and `dest` is
never cleared.  The claim that no href is set is false. -/
theorem C6_counterexample :
    processXrefs none xrefsC6 = .ok
      [.element "a" [("href", some "biblio.xml#r1")] [.text "1"],
       .element "a" [("href", some "biblio.xml#r1")] [.text "V"]] ∧
    xrefMapping "video" "v1" = none ∧
    (Node.element "a" [("href", some "biblio.xml#r1")] [Node.text "V"]).getAttribute
      "href" = "biblio.xml#r1" := by
  exact ⟨rfl, rfl, rfl⟩

/-- C6 as amended: each xref is relabeled to an anchor with `ref-type`
and `rid` removed; a recognized ref-type sets `href` through the
mapping `bibr ↦ biblio.xml#rid`, `fig`/`supplementary-material`/`table`
↦ `main.xml#rid`, `aff` ↦ `synop.xml#rid`; an *unrecognized* ref-type
still sets `href` — to the `dest` left over from the most recent
recognized xref — and when no earlier iteration ever assigned `dest`,
the loop raises `NameError` instead of producing an anchor without an
href. -/
theorem C6_xrefStep_amended (dest : Option String) (x : Node)
    (a1 a2 : List (String × Option String))
    (ha : pyRemoveAttr x.attrList "ref-type" = .ok a1)
    (hb : pyRemoveAttr a1 "rid" = .ok a2) :
    (∀ rid : String,
       xrefMapping "bibr" rid = some ("biblio.xml#" ++ rid) ∧
       xrefMapping "fig" rid = some ("main.xml#" ++ rid) ∧
       xrefMapping "supplementary-material" rid = some ("main.xml#" ++ rid) ∧
       xrefMapping "table" rid = some ("main.xml#" ++ rid) ∧
       xrefMapping "aff" rid = some ("synop.xml#" ++ rid)) ∧
    (∀ d, xrefMapping (x.getAttribute "ref-type") (x.getAttribute "rid") = some d →
       xrefStep dest x =
         .ok (some d, .element "a" (setAttr a2 "href" (some d)) x.children)) ∧
    (xrefMapping (x.getAttribute "ref-type") (x.getAttribute "rid") = none →
       (∀ d0, dest = some d0 →
          xrefStep dest x =
            .ok (some d0, .element "a" (setAttr a2 "href" (some d0)) x.children)) ∧
       (dest = none → xrefStep dest x = .error .nameError)) := by
  refine ⟨fun rid => ⟨rfl, rfl, rfl, rfl, rfl⟩, ?_, ?_⟩
  · intro d hd
    simp [xrefStep, hd, ha, hb]
  · intro hd
    constructor
    · intro d0 hd0
      simp [xrefStep, hd, hd0, ha, hb]
    · intro hd0
      simp [xrefStep, hd, hd0, ha, hb]

/-- Witness for C6 as amended: a recognized `fig` xref gets
`main.xml#f1`; an unrecognized one after it inherits the stale dest;
an unrecognized one with no prior assignment raises `NameError`. -/
theorem C6_witness :
    xrefStep none (.element "xref" [("ref-type", some "fig"), ("rid", some "f1")] [])
      = .ok (some "main.xml#f1",
             .element "a" [("href", some "main.xml#f1")] []) ∧
    xrefStep (some "main.xml#f1")
        (.element "xref" [("ref-type", some "video"), ("rid", some "v1")] [])
      = .ok (some "main.xml#f1",
             .element "a" [("href", some "main.xml#f1")] []) ∧
    xrefStep none
        (.element "xref" [("ref-type", some "video"), ("rid", some "v1")] [])
      = .error .nameError := by
  refine ⟨?_, ?_, ?_⟩
  · have h := (C6_xrefStep_amended none
      (.element "xref" [("ref-type", some "fig"), ("rid", some "f1")] [])
      [("rid", some "f1")] [] rfl rfl).2.1 "main.xml#f1" rfl
    rw [h]
    rfl
  · have h := ((C6_xrefStep_amended (some "main.xml#f1")
      (.element "xref" [("ref-type", some "video"), ("rid", some "v1")] [])
      [("rid", some "v1")] [] rfl rfl).2.2 rfl).1 "main.xml#f1" rfl
    rw [h]
    rfl
  · have h := ((C6_xrefStep_amended none
      (.element "xref" [("ref-type", some "video"), ("rid", some "v1")] [])
      [("rid", some "v1")] [] rfl rfl).2.2 rfl).2 rfl
    rw [h]

/-- C5: a `<table-wrap>` with no embedded HTML `<table>` alternate form
(and a labelled, titled wrap) is still processed without failing: the
label block (bolded label text followed by the title text) and the
image node — whose source is resolved from the trailing
hyphen-delimited segment of the wrap's id — are emitted in place of
the original node, which is removed; no table is moved to the Tables
document and only the `HTML version of <label>` hyperlink is
omitted. -/
theorem C5_tableWrap_noHtmlTable (files : List (String × String))
    (pre post : List Node) (item lab : Node) (labs : List Node)
    (lt tt : String)
    (hlab : item.getElems "label" = lab :: labs)
    (hlt : getTagText lab = some lt)
    (htt : getTagData (item.getElems "title") = .ok tt)
    (hnotab : item.getElems "table" = []) :
    applyTableWrap files pre post item = .ok (
      pre ++
        [Node.element "div"
           [("class", some "table_label"), ("id", some (item.getAttribute "id"))]
           [Node.element "b" [] [Node.text lt], Node.text tt],
         Node.element "img"
           [("src", imgResolve files (lastHyphenSegment (item.getAttribute "id"))),
            ("alt", some "A Table")] []]
        ++ post,
      none) := by
  simp only [applyTableWrap, tableWrapRepl, hlab, htt, hnotab, pyHead,
    tableTryBlock, except_bind_ok, except_bind_err, pyCreateTextNode, hlt,
    Option.getD_some]

/-- The `<table-wrap>` of the C5 witness: label and caption title but
no embedded HTML `<table>`. -/
def twC5 : Node :=
  .element "table-wrap" [("id", some "pone-0012345-t001")] [
    .element "label" [] [.text "Table 1"],
    .element "caption" [] [.element "title" [] [.text "Summary of results."]],
    .element "graphic"
      [("xlink:href", some "info:doi/10.1371/journal.pone.0012345.t001")] []]

/-- Witness for C5 at the concrete table-wrap, with one matching image
file on disk. -/
theorem C5_witness :
    applyTableWrap [("images/tables", "t001.png")] [Node.text "A"] [Node.text "B"]
        twC5 = .ok (
      [Node.text "A",
       Node.element "div"
         [("class", some "table_label"), ("id", some "pone-0012345-t001")]
         [Node.element "b" [] [Node.text "Table 1"],
          Node.text "Summary of results."],
       Node.element "img"
         [("src", some "images/tables/t001.png"), ("alt", some "A Table")] [],
       Node.text "B"],
      none) := by
  have h := C5_tableWrap_noHtmlTable [("images/tables", "t001.png")]
    [Node.text "A"] [Node.text "B"] twC5
    (Node.element "label" [] [Node.text "Table 1"]) []
    "Table 1" "Summary of results." rfl rfl rfl rfl
  rw [h]
  rfl

/-- C7: zipping a completed output directory that contains `mimetype`,
`META-INF` and `OPS` produces the archive `<root>.epub` whose first
entry is the file named `mimetype`; the content `makeEPUBBase` wrote
there is exactly `application/epub+zip`; and every file under
`META-INF` and `OPS` is added recursively with its relative path
preserved. -/
theorem C7_epubZip_first_mimetype (outdirect css : String)
    (root : List FSEntry) (mt : String) (mi ops : List FSEntry)
    (hmt : findFile "mimetype" root = some mt)
    (hmi : findDir "META-INF" root = some mi)
    (hops : findDir "OPS" root = some ops) :
    epubZip outdirect root = .ok (outdirect ++ ".epub",
      ("mimetype", mt) ::
        (zipEntriesList "META-INF" mi ++ zipEntriesList "OPS" ops)) ∧
    findFile "mimetype" (makeEPUBBaseFS css) = some mimetypeContent ∧
    mimetypeContent = "application/epub+zip" ∧
    (∀ comps c, FileAt mi comps c →
       (joinPath ("META-INF" :: comps), c) ∈ zipEntriesList "META-INF" mi) ∧
    (∀ comps c, FileAt ops comps c →
       (joinPath ("OPS" :: comps), c) ∈ zipEntriesList "OPS" ops) := by
  refine ⟨?_, rfl, rfl, ?_, ?_⟩
  · simp [epubZip, hmt, hmi, hops]
  · intro comps c h
    exact fileAt_mem_zipEntries h "META-INF"
  · intro comps c h
    exact fileAt_mem_zipEntries h "OPS"

/-- Witness for C7 on the skeleton produced by `makeEPUBBase` itself:
the archive entries, in write order, start with `mimetype` holding the
literal `application/epub+zip`. -/
theorem C7_witness :
    epubZip "journal.pone.0012345" (makeEPUBBaseFS "CSS") = .ok
      ("journal.pone.0012345.epub",
       [("mimetype", "application/epub+zip"),
        ("META-INF/container.xml", containerXML),
        ("OPS/css/article.css", "CSS")]) := by
  have h := (C7_epubZip_first_mimetype "journal.pone.0012345" "CSS"
    (makeEPUBBaseFS "CSS") mimetypeContent
    [FSEntry.file "container.xml" containerXML]
    [FSEntry.dir "css" [FSEntry.file "article.css" "CSS"]]
    rfl rfl rfl).1
  rw [h]
  rfl

end OAEpub
